import Mathlib

/-!
Shallow embedding of the `gosh-rs/runners` job runner, verified against its
natural-language specification.

The embedding covers:
* a path model mirroring Rust's `Path::join` (raw component append, an
  absolute argument replaces the base, no normalization);
* `Job` and `Session` from `src/job.rs` (materialization of the run/input
  files, start/wait/terminate/drop behaviour as emitted signal events);
* the job registry `Jobs`/`Db` from `src/job.rs` (slot store plus the
  id-to-key `BiMap`, and the `Db` operations as state transformers whose
  result distinguishes `ok`, returned errors and panics/aborts);
* the process inspector and signal broadcast from `src/process.rs`
  (pid re-resolution with the `(pid, starttime)` identity guard);
* the timed-runner selection loop of `src/session.rs` (branch taken,
  unconditional post-loop `kill()`).

File-system and process side effects are represented as explicit event
lists; environmental nondeterminism (which select branch fires, whether a
`kill(2)` call succeeds, the process table at enumeration and at recheck
time) is passed in as parameters.
-/

namespace Runners

/-! ## Path model (Rust `std::path`) -/

/-- One path component: either the parent-directory component `..` or a
normal file name.  (`.` components never occur in the embedded code.) -/
inductive PComp where
  | up : PComp
  | name (s : String) : PComp
deriving DecidableEq, BEq, Repr

/-- A path: an absolute-or-relative flag plus raw components.  Mirrors
Rust's `PathBuf`, which stores components verbatim without resolution. -/
structure RPath where
  absolute : Bool
  comps : List PComp
deriving DecidableEq, BEq, Repr

/-- Rust `Path::join`: if the argument is absolute it replaces the whole
path; otherwise its components are appended verbatim — no normalization
and no containment check. -/
def RPath.join (p q : RPath) : RPath :=
  if q.absolute then q else ⟨p.absolute, p.comps ++ q.comps⟩

/-- One step of lexical resolution: a `..` pops the last resolved
component (at the root of an absolute path it stays at the root, as the
file system resolves it). -/
def normStep (acc : List PComp) : PComp → List PComp
  | .up => acc.dropLast
  | c => acc ++ [c]

/-- Lexical resolution of a component list (used to decide where a joined
path actually points; the embedded code itself never normalizes). -/
def normComps (cs : List PComp) : List PComp := cs.foldl normStep []

/-- Resolved form of a path. -/
def RPath.normalize (p : RPath) : RPath := ⟨p.absolute, normComps p.comps⟩

/-- `p` lies inside `base`: both are of the same kind and the resolved
components of `base` are a prefix of the resolved components of `p`. -/
def RPath.isUnder (base p : RPath) : Bool :=
  base.absolute == p.absolute && (normComps base.comps).isPrefixOf (normComps p.comps)

/-- Convenience: a relative single-name path. -/
def relFile (s : String) : RPath := ⟨false, [.name s]⟩

/-! ## Job (`src/job.rs`, struct `Job`) -/

/-- The submitted form of a job: script text, stdin input, and the
relative file names inside the working directory. -/
structure Job where
  input : String
  script : String
  inp_file : RPath
  out_file : RPath
  err_file : RPath
  run_file : RPath
  extra_files : List RPath
deriving DecidableEq, Repr

/-- `Job::new`: a job running a shell script, with the default file names. -/
def Job.new (script : String) : Job where
  input := ""
  script := script
  inp_file := relFile "job.inp"
  out_file := relFile "job.out"
  err_file := relFile "job.err"
  run_file := relFile "run"
  extra_files := []

/-! ## Session (`src/job.rs`, struct `Session`) -/

/-- A spawned child handle; `id` is `tokio::process::Child::id()`
(the pid, used as the session id). -/
structure Child where
  id : Option Nat
deriving DecidableEq, Repr

/-- The active form of a job: the submitted job, its working directory,
and the optional running child handle. -/
structure Session where
  job : Job
  wrk_dir : RPath
  session : Option Child
deriving DecidableEq, Repr

/-- `Session::inp_file`: `wrk_dir` join of the configured input name. -/
def Session.inp_file (s : Session) : RPath := s.wrk_dir.join s.job.inp_file

/-- `Session::out_file`. -/
def Session.out_file (s : Session) : RPath := s.wrk_dir.join s.job.out_file

/-- `Session::err_file`. -/
def Session.err_file (s : Session) : RPath := s.wrk_dir.join s.job.err_file

/-- `Session::run_file`. -/
def Session.run_file (s : Session) : RPath := s.wrk_dir.join s.job.run_file

/-- A file creation performed during materialization: target path, the
bytes written, the `mode` passed at open, and whether the file was opened
write-only. -/
structure WriteEvent where
  path : RPath
  content : String
  mode : Nat
  writeOnly : Bool
deriving DecidableEq, Repr

/-- `Session::new` (materialization at insert): builds the session record
with no child, writes the script to the run file opened with
`OpenOptions::new().create(true).write(true).mode(0o770)`, and writes the
stdin input to the input file via `File::create` (default mode `0o666`).
The fresh temporary directory produced by `TempDir::new_in(".")` is
passed in as `wrk`. -/
def Session.new (job : Job) (wrk : RPath) : Session × List WriteEvent :=
  let s : Session := { job := job, wrk_dir := wrk, session := none }
  (s, [ { path := s.run_file, content := s.job.script, mode := 0o770, writeOnly := true },
        { path := s.inp_file, content := s.job.input, mode := 0o666, writeOnly := true } ])

/-- A signal broadcast request: `signal_processes_by_session_id(sid, sig)`. -/
inductive SigEvent where
  | signal (sid : Nat) (sig : String)
deriving DecidableEq, Repr

/-- `Session::terminate`: if a child handle with an id is stored,
broadcast SIGTERM over its session; otherwise only a debug log. -/
def Session.terminate (s : Session) : List SigEvent :=
  match s.session with
  | some child =>
    match child.id with
    | some sid => [.signal sid "SIGTERM"]
    | none => []
  | none => []

/-- `impl Drop for Session`: drop delegates to `terminate`. -/
def Session.dropSignals (s : Session) : List SigEvent := s.terminate

/-- `Session::is_started`: a child handle is currently stored. -/
def Session.is_started (s : Session) : Bool := s.session.isSome

/-- `Session::start` (happy path): spawn the run file and store the child
handle; `sid` is the spawned child's pid.  (I/O on the stdout/stderr
copies can fail and abort the caller earlier; no claim depends on that
path, so it is elided here.) -/
def Session.start (s : Session) (sid : Nat) : Session :=
  { s with session := some { id := some sid } }

/-- `Session::wait`: `self.session.take()` removes the child handle and
waits on it, so afterwards no handle is stored. -/
def Session.wait (s : Session) : Session := { s with session := none }

/-! ## Slot store (the `slotmap` crate, modelled by its contract)

`SlotMap<DefaultKey, Session>` issues versioned keys: a removed slot's
version is bumped, so a key, once invalidated, is never issued again and
never aliases a later occupant.  That contract is modelled with a running
counter: `next` is the next fresh key, `cells` the live `(key, value)`
associations.  `get`/`remove` succeed exactly on live keys, and indexing
a dead key panics (handled at each call site). -/

structure SMap where
  next : Nat
  cells : List (Nat × Session)
deriving DecidableEq, Repr

def SMap.empty : SMap := { next := 0, cells := [] }

/-- `SlotMap::insert`: returns the fresh key. -/
def SMap.insert (m : SMap) (v : Session) : SMap × Nat :=
  ({ next := m.next + 1, cells := m.cells ++ [(m.next, v)] }, m.next)

/-- `SlotMap::get` (what `Index` does before panicking on `None`). -/
def SMap.get (m : SMap) (k : Nat) : Option Session :=
  (m.cells.find? (fun c => c.1 == k)).map (·.2)

/-- `SlotMap::remove` restricted to its effect on the store. -/
def SMap.removeKey (m : SMap) (k : Nat) : SMap :=
  { m with cells := m.cells.filter (fun c => c.1 != k) }

/-- `SlotMap::clear`: drops every live entry (their keys stay retired). -/
def SMap.clear (m : SMap) : SMap := { m with cells := [] }

/-- `IndexMut` assignment `jobs[k] = v` on a live key. -/
def SMap.setVal (m : SMap) (k : Nat) (v : Session) : SMap :=
  { m with cells := m.cells.map (fun c => if c.1 == k then (k, v) else c) }

/-! ## Job registry (`src/job.rs`, `mod impl_jobs_slotmap` and `mod db`) -/

/-- Errors returned (as `Err`) by registry operations. -/
inductive RtError where
  | notFound (id : Nat)
  | alreadyStarted (id : Nat)
deriving DecidableEq, Repr

/-- Result of one registry operation: a returned value, a returned error,
or a panic (the Rust code aborts: `panic!`, slotmap `Index` on a dead
key, or `BiMap::insert_no_overwrite` rejection). -/
inductive Outcome (α : Type) where
  | ok (a : α)
  | err (e : RtError)
  | panicked
deriving DecidableEq, Repr

/-- `bimap::BiMap<usize, JobKey>` as its list of pairs; `Jobs` couples it
with the slot store. -/
structure Jobs where
  inner : SMap
  mapping : List (Nat × Nat)
deriving DecidableEq, Repr

/-- `BiMap::get_by_left`. -/
def lookupLeft (m : List (Nat × Nat)) (id : Nat) : Option Nat :=
  (m.find? (fun p => p.1 == id)).map (·.2)

/-- `BiMap::get_by_right`. -/
def lookupRight (m : List (Nat × Nat)) (k : Nat) : Option Nat :=
  (m.find? (fun p => p.2 == k)).map (·.1)

/-- `Jobs::new`. -/
def Jobs.new : Jobs := { inner := SMap.empty, mapping := [] }

/-- `Jobs::check_job`: resolve an external id through the mapping
(`None` becomes the `NotFound` bail at each caller). -/
def Jobs.check_job (js : Jobs) (id : Nat) : Option Nat :=
  lookupLeft js.mapping id

/-- `Jobs::to_id`: resolve a slot key back to its external id. -/
def Jobs.to_id (js : Jobs) (k : Nat) : Option Nat :=
  lookupRight js.mapping k

/-- `Jobs::insert`: put the session into the slot store, then register
`(mapping.len() + 1, key)` with `insert_no_overwrite` (whose rejection
the source turns into a panic). -/
def Jobs.insert (js : Jobs) (s : Session) : Outcome (Jobs × Nat) :=
  let r := js.inner.insert s
  let n := js.mapping.length + 1
  if (lookupLeft js.mapping n).isSome || (lookupRight js.mapping r.2).isSome then
    .panicked
  else
    .ok ({ inner := r.1, mapping := js.mapping ++ [(n, r.2)] }, n)

/-- `Jobs::remove`: resolve the id, index the slot (`&self.inner[k]`
panics on a stale key), then remove the slot.  Note the mapping entry is
NOT removed. -/
def Jobs.remove (js : Jobs) (id : Nat) : Outcome Jobs :=
  match js.check_job id with
  | none => .err (.notFound id)
  | some k =>
    match js.inner.get k with
    | none => .panicked
    | some _ => .ok { js with inner := js.inner.removeKey k }

/-- `Jobs::clear`: iterate the live slots (calling `to_id`, which panics
on an unmapped key), then clear the slot store.  The mapping is NOT
cleared. -/
def Jobs.clear (js : Jobs) : Outcome Jobs :=
  if js.inner.cells.all (fun c => (lookupRight js.mapping c.1).isSome) then
    .ok { js with inner := js.inner.clear }
  else
    .panicked

/-! ## Db operations (`src/job.rs`, `mod db`)

The `Arc<Mutex<_>>` serializes the operations, so each is a state
transformer on `Jobs`.  The fresh temporary directory used by
`Job::submit` is passed in as `wrk`, and the spawned child's pid as
`sid`. -/

namespace Db

/-- `Db::insert_job`: materialize (`job.submit()`) and insert. -/
def insert_job (js : Jobs) (job : Job) (wrk : RPath) : Outcome (Jobs × Nat) :=
  js.insert (Session.new job wrk).1

/-- `Db::update_job`: resolve the id, index the slot (panics on a stale
key), refuse if a child handle is stored, else replace the stored session
with a freshly materialized one. -/
def update_job (js : Jobs) (id : Nat) (new_job : Job) (wrk : RPath) : Outcome Jobs :=
  match js.check_job id with
  | none => .err (.notFound id)
  | some k =>
    match js.inner.get k with
    | none => .panicked
    | some s =>
      if s.is_started then .err (.alreadyStarted id)
      else .ok { js with inner := js.inner.setVal k (Session.new new_job wrk).1 }

/-- `Db::delete_job`. -/
def delete_job (js : Jobs) (id : Nat) : Outcome Jobs := js.remove id

/-- `Db::clear_jobs`. -/
def clear_jobs (js : Jobs) : Outcome Jobs := js.clear

/-- `Db::get_job_list`: the live slots through `to_id` (`none` models the
`to_id` panic on an unmapped live key). -/
def get_job_list (js : Jobs) : Option (List Nat) :=
  js.inner.cells.mapM (fun c => js.to_id c.1)

/-- `Db::wait_job` (happy path): resolve, start (stores the child
handle), then wait (takes the handle back out). -/
def wait_job (js : Jobs) (id : Nat) (sid : Nat) : Outcome Jobs :=
  match js.check_job id with
  | none => .err (.notFound id)
  | some k =>
    match js.inner.get k with
    | none => .panicked
    | some s => .ok { js with inner := js.inner.setVal k ((s.start sid).wait) }

/-- `Db::put_job_file`: the path actually written is the raw join of the
job's working directory with the client-supplied name. -/
def put_job_file_path (js : Jobs) (id : Nat) (file : RPath) : Outcome RPath :=
  match js.check_job id with
  | none => .err (.notFound id)
  | some k =>
    match js.inner.get k with
    | none => .panicked
    | some s => .ok (s.wrk_dir.join file)

/-- `Db::get_job_file`: the path actually read is the raw join of the
job's working directory with the client-supplied name. -/
def get_job_file_path (js : Jobs) (id : Nat) (file : RPath) : Outcome RPath :=
  match js.check_job id with
  | none => .err (.notFound id)
  | some k =>
    match js.inner.get k with
    | none => .panicked
    | some s => .ok (s.wrk_dir.join file)

end Db

/-! ## Operation sequences over the registry -/

/-- One registry operation, with its environmental inputs (fresh
temporary directory, spawned pid). -/
inductive Op where
  | ins (j : Job) (wrk : RPath)
  | upd (id : Nat) (j : Job) (wrk : RPath)
  | del (id : Nat)
  | clr
  | wait (id : Nat) (sid : Nat)

/-- Apply one operation; the issued-id list records ids returned by
`insert_job`. -/
def applyOp (js : Jobs) : Op → Outcome (Jobs × List Nat)
  | .ins j w =>
    match Db.insert_job js j w with
    | .ok r => .ok (r.1, [r.2])
    | .err e => .err e
    | .panicked => .panicked
  | .upd id j w =>
    match Db.update_job js id j w with
    | .ok js2 => .ok (js2, [])
    | .err e => .err e
    | .panicked => .panicked
  | .del id =>
    match Db.delete_job js id with
    | .ok js2 => .ok (js2, [])
    | .err e => .err e
    | .panicked => .panicked
  | .clr =>
    match Db.clear_jobs js with
    | .ok js2 => .ok (js2, [])
    | .err e => .err e
    | .panicked => .panicked
  | .wait id sid =>
    match Db.wait_job js id sid with
    | .ok js2 => .ok (js2, [])
    | .err e => .err e
    | .panicked => .panicked

/-- Run a sequence of operations from a state, collecting the issued
external ids in order.  A returned error leaves the state unchanged and
the run continues; a panic aborts the process, so the run stops there. -/
def runOps : Jobs → List Op → Jobs × List Nat
  | js, [] => (js, [])
  | js, op :: rest =>
    match applyOp js op with
    | .ok r =>
      let tail := runOps r.1 rest
      (tail.1, r.2 ++ tail.2)
    | .err _ => runOps js rest
    | .panicked => (js, [])

/-! ## Process inspector and signal broadcast (`src/process.rs`) -/

/-- One live process as seen in the OS process table (`psutil`): pid,
start time (modelled as an abstract timestamp; enumeration and recheck
apply the same `f64`-to-`DateTime` conversion, so comparisons are
determined by this value), and session id. -/
structure Proc where
  pid : Nat
  starttime : Nat
  sessionId : Nat
deriving DecidableEq, Repr

/-- `UniqueProcessId`: the `(pid, start_time)` identity used as the
pid-reuse guard. -/
structure Upid where
  pid : Nat
  starttime : Nat
deriving DecidableEq, Repr

/-- `UniqueProcessId::from_process`. -/
def Upid.from_process (p : Proc) : Upid := { pid := p.pid, starttime := p.starttime }

/-- `UniqueProcessId::from_pid`: re-resolve a pid against the current
process table; `none` when the process is no longer alive. -/
def Upid.from_pid (t : List Proc) (pid : Nat) : Option Upid :=
  (t.find? (fun p => p.pid == pid)).map Upid.from_process

/-- `impl_get_child_processes_by_session_id`: every table entry whose
session id matches, as `(pid, start_time)` identities.  (The source
collects into a `HashSet`; iteration order is unspecified, so the list
order here is one admissible order.) -/
def get_child_processes (t : List Proc) (sid : Nat) : List Upid :=
  (t.filter (fun p => p.sessionId == sid)).map Upid.from_process

/-- The signal names accepted by `str::parse::<nix::sys::signal::Signal>`
(the closed recognized set on Linux). -/
def sigNames : List String :=
  ["SIGHUP", "SIGINT", "SIGQUIT", "SIGILL", "SIGTRAP", "SIGABRT", "SIGBUS",
   "SIGFPE", "SIGKILL", "SIGUSR1", "SIGSEGV", "SIGUSR2", "SIGPIPE", "SIGALRM",
   "SIGTERM", "SIGSTKFLT", "SIGCHLD", "SIGCONT", "SIGSTOP", "SIGTSTP",
   "SIGTTIN", "SIGTTOU", "SIGURG", "SIGXCPU", "SIGXFSZ", "SIGVTALRM",
   "SIGPROF", "SIGWINCH", "SIGIO", "SIGPWR", "SIGSYS"]

/-- A signal name parses. -/
def validSignal (s : String) : Bool := sigNames.contains s

/-- One observable step of the broadcast loop. -/
inductive KEv where
  | killed (pid : Nat) (sig : String)
  | warnReused (pid : Nat)
  | infoGone (pid : Nat)
deriving DecidableEq, Repr

/-- The `for child in child_processes` loop of
`impl_signal_processes_by_session_id`: re-resolve each pid against the
process table `t2` as of the recheck, compare identities, and kill only
on a match.  `killOk` tells whether the `nix` `kill` call succeeds for a
pid; on failure the `?` operator aborts the whole loop with an error
(second component `false`). -/
def broadcastLoop (sig : String) (t2 : List Proc) (killOk : Nat → Bool) :
    List Upid → List KEv × Bool
  | [] => ([], true)
  | c :: rest =>
    match Upid.from_pid t2 c.pid with
    | some p =>
      if p = c then
        if killOk c.pid then
          let r := broadcastLoop sig t2 killOk rest
          (.killed c.pid sig :: r.1, r.2)
        else
          ([], false)
      else
        let r := broadcastLoop sig t2 killOk rest
        (.warnReused c.pid :: r.1, r.2)
    | none =>
      let r := broadcastLoop sig t2 killOk rest
      (.infoGone c.pid :: r.1, r.2)

/-- `impl_signal_processes_by_session_id`: parse the signal name (an
unknown name is an error), enumerate the session's processes from the
table `t1` as of enumeration time, and run the kill loop against the
table `t2` as of recheck time. -/
def impl_signal_processes_by_session_id (sid : Nat) (sig : String)
    (t1 t2 : List Proc) (killOk : Nat → Bool) : List KEv × Bool :=
  if validSignal sig then broadcastLoop sig t2 killOk (get_child_processes t1 sid)
  else ([], false)

/-! ## Timed runner (`src/session.rs`, `Session::start`) -/

/-- The supervisor state of `session.rs` that the runner claims touch:
the session id recorded at spawn. -/
structure TSession where
  sid : Option Nat
deriving DecidableEq, Repr

/-- Which of the three selected event sources fires first. -/
inductive Branch where
  | childExit
  | interrupted
  | timedOut
deriving DecidableEq, Repr

/-- Observable steps of one timed run. -/
inductive REv where
  | spawned (pid : Nat)
  | took (b : Branch)
  | sigBroadcast (sid : Nat) (sig : String)
deriving DecidableEq, Repr

/-- `Session::signal` (session.rs): broadcast over the recorded session
id, or only a debug log when no child was spawned yet. -/
def TSession.signal (s : TSession) (sig : String) : List REv :=
  match s.sid with
  | some sid => [.sigBroadcast sid sig]
  | none => []

/-- `Session::kill`: SIGKILL broadcast. -/
def TSession.kill (s : TSession) : List REv := s.signal "SIGKILL"

/-- Is an event the taking of a select branch? -/
def REv.isTook : REv → Bool
  | .took _ => true
  | _ => false

/-- How one call of the runner's `start` returns. -/
inductive RunResult where
  | ok
  | errSpawn
  | errStdin
deriving DecidableEq, Repr

/-- The timed runner `Session::start` of `session.rs`, with its early
exits: `spawn()?` can fail before `self.sid` is recorded
(`errSpawn`, no events); after a successful spawn the sid is recorded
and `child.stdin.take()…write_all(&self.stdin_bytes).await…?` runs
BEFORE the timeout is created and the selection loop is entered — if
that hand-off fails, `start` returns the error there (`errStdin`): no
select branch is taken and `kill()` is never invoked.  Only when the
stdin write succeeds does the runner select over child exit / ctrl-c /
the deadline, breaking with `v = 0` on child exit and `v = 1`
otherwise, and then — on both sides of the final `if` — call `kill()`.
`spawnOk` (the spawned pid, if any), `stdinOk` and the winning branch
`b` are environmental inputs. -/
def timedStart (spawnOk : Option Nat) (stdinOk : Bool) (b : Branch) :
    TSession × List REv × RunResult :=
  match spawnOk with
  | none => ({ sid := none }, [], .errSpawn)
  | some pid =>
    let s : TSession := { sid := some pid }
    if stdinOk then
      let v : Nat :=
        match b with
        | .childExit => 0
        | .interrupted => 1
        | .timedOut => 1
      let post := if v = 1 then s.kill else s.kill
      (s, [.spawned pid, .took b] ++ post, .ok)
    else
      (s, [.spawned pid], .errStdin)

/-! ## Concrete states used by counterexamples and witnesses -/

/-- A sample submitted job. -/
def exJob : Job := Job.new "echo hi"

/-- A second sample job, used as the replacement in updates. -/
def exJob2 : Job := Job.new "echo bye"

/-- The temporary working directory handed to the first materialization. -/
def exWrk : RPath := ⟨true, [.name "tmp", .name "w1"]⟩

/-- A second temporary working directory. -/
def exWrk2 : RPath := ⟨true, [.name "tmp", .name "w2"]⟩

/-- The registry after inserting `exJob` (external id 1, slot key 0). -/
def exSt1 : Jobs :=
  { inner := { next := 1, cells := [(0, (Session.new exJob exWrk).1)] },
    mapping := [(1, 0)] }

/-- The registry after then deleting job 1: the slot is gone but the
mapping entry `(1, 0)` survives. -/
def exSt2 : Jobs :=
  { inner := { next := 1, cells := [] }, mapping := [(1, 0)] }

/-- A session that currently stores a child handle with session id 42. -/
def exStarted : Session :=
  { (Session.new exJob exWrk).1 with session := some { id := some 42 } }

/-- A registry holding, under id 1, a session with a stored child
handle. -/
def exStJobs : Jobs :=
  { inner := { next := 1, cells := [(0, exStarted)] }, mapping := [(1, 0)] }

/-- A client-supplied "relative" file name that climbs out of the working
directory. -/
def exEvilRel : RPath := ⟨false, [.up, .up, .name "etc", .name "passwd"]⟩

/-- A client-supplied absolute file name. -/
def exEvilAbs : RPath := ⟨true, [.name "etc", .name "passwd"]⟩

/-- Two processes in session 5, as of enumeration and recheck time. -/
def exProcA : Proc := { pid := 10, starttime := 100, sessionId := 5 }

def exProcB : Proc := { pid := 11, starttime := 101, sessionId := 5 }

def exTable : List Proc := [exProcA, exProcB]

/-- A kill environment in which the `kill(2)` call fails for pid 10. -/
def exKillFail10 : Nat → Bool := fun pid => pid != 10

/-- A kill environment in which every `kill(2)` call succeeds. -/
def exKillAllOk : Nat → Bool := fun _ => true

/-! ## Helper lemmas: the mapping only ever grows at `insert` -/

theorem update_job_ok_mapping {js js2 : Jobs} {id : Nat} {j : Job} {w : RPath}
    (h : Db.update_job js id j w = .ok js2) : js2.mapping = js.mapping := by
  unfold Db.update_job at h
  split at h
  · exact absurd h (by simp)
  · split at h
    · exact absurd h (by simp)
    · split at h
      · exact absurd h (by simp)
      · cases h
        rfl

theorem remove_ok_mapping {js js2 : Jobs} {id : Nat}
    (h : Jobs.remove js id = .ok js2) : js2.mapping = js.mapping := by
  unfold Jobs.remove at h
  split at h
  · exact absurd h (by simp)
  · split at h
    · exact absurd h (by simp)
    · cases h
      rfl

theorem clear_ok_mapping {js js2 : Jobs}
    (h : Jobs.clear js = .ok js2) : js2.mapping = js.mapping := by
  unfold Jobs.clear at h
  split at h
  · cases h
    rfl
  · exact absurd h (by simp)

theorem wait_job_ok_mapping {js js2 : Jobs} {id sid : Nat}
    (h : Db.wait_job js id sid = .ok js2) : js2.mapping = js.mapping := by
  unfold Db.wait_job at h
  split at h
  · exact absurd h (by simp)
  · split at h
    · exact absurd h (by simp)
    · cases h
      rfl

theorem insert_job_ok_mapping {js js2 : Jobs} {j : Job} {w : RPath} {n : Nat}
    (h : Db.insert_job js j w = .ok (js2, n)) :
    n = js.mapping.length + 1 ∧ js2.mapping.length = js.mapping.length + 1 := by
  simp only [Db.insert_job, Jobs.insert] at h
  split at h
  · exact absurd h (by simp)
  · cases h
    exact ⟨rfl, by simp⟩

theorem applyOp_ok_issued {js js2 : Jobs} {ids : List Nat} :
    ∀ {op : Op}, applyOp js op = .ok (js2, ids) →
      (ids = [js.mapping.length + 1] ∧ js2.mapping.length = js.mapping.length + 1)
      ∨ (ids = [] ∧ js2.mapping = js.mapping) := by
  intro op h
  cases op with
  | ins j w =>
    left
    simp only [applyOp] at h
    cases hdb : Db.insert_job js j w with
    | ok r =>
      rw [hdb] at h
      cases h
      obtain ⟨h1, h2⟩ := @insert_job_ok_mapping js r.1 j w r.2 (by rw [hdb])
      exact ⟨by rw [h1], h2⟩
    | err e => rw [hdb] at h; exact absurd h (by simp)
    | panicked => rw [hdb] at h; exact absurd h (by simp)
  | upd id j w =>
    right
    simp only [applyOp] at h
    cases hdb : Db.update_job js id j w with
    | ok js3 => rw [hdb] at h; cases h; exact ⟨rfl, update_job_ok_mapping hdb⟩
    | err e => rw [hdb] at h; exact absurd h (by simp)
    | panicked => rw [hdb] at h; exact absurd h (by simp)
  | del id =>
    right
    simp only [applyOp] at h
    cases hdb : Db.delete_job js id with
    | ok js3 => rw [hdb] at h; cases h; exact ⟨rfl, remove_ok_mapping hdb⟩
    | err e => rw [hdb] at h; exact absurd h (by simp)
    | panicked => rw [hdb] at h; exact absurd h (by simp)
  | clr =>
    right
    simp only [applyOp] at h
    cases hdb : Db.clear_jobs js with
    | ok js3 => rw [hdb] at h; cases h; exact ⟨rfl, clear_ok_mapping hdb⟩
    | err e => rw [hdb] at h; exact absurd h (by simp)
    | panicked => rw [hdb] at h; exact absurd h (by simp)
  | wait id sid =>
    right
    simp only [applyOp] at h
    cases hdb : Db.wait_job js id sid with
    | ok js3 => rw [hdb] at h; cases h; exact ⟨rfl, wait_job_ok_mapping hdb⟩
    | err e => rw [hdb] at h; exact absurd h (by simp)
    | panicked => rw [hdb] at h; exact absurd h (by simp)

theorem runOps_issued (ops : List Op) : ∀ js : Jobs,
    (runOps js ops).2 = List.range' (js.mapping.length + 1) (runOps js ops).2.length := by
  induction ops with
  | nil => intro js; rfl
  | cons op rest ih =>
    intro js
    cases hop : applyOp js op with
    | panicked => simp [runOps, hop]
    | err e =>
      show (runOps js (op :: rest)).2 = _
      simp only [runOps, hop]
      exact ih js
    | ok r =>
      obtain ⟨js2, ids⟩ := r
      rcases applyOp_ok_issued hop with ⟨hids, hlen⟩ | ⟨hids, hmap⟩
      · subst hids
        have ht := ih js2
        rw [hlen] at ht
        simp only [runOps, hop, List.singleton_append, List.length_cons]
        rw [List.range'_succ, ← ht]
      · subst hids
        have ht := ih js2
        rw [hmap] at ht
        simp only [runOps, hop, List.nil_append]
        exact ht

/-! ## Claim theorems -/

/-- C3: over any sequence of registry operations on one instance, the
external ids issued by `insert_job` are exactly the consecutive integers
1, 2, 3, … in order — issued monotonically starting at 1, with no id
ever issued twice, even across deletions and `clear_jobs` (the id↔key
mapping never shrinks, and the next id is always `mapping.len() + 1`). -/
theorem issued_ids_consecutive_from_one (ops : List Op) :
    (runOps Jobs.new ops).2 = List.range' 1 (runOps Jobs.new ops).2.length ∧
    (runOps Jobs.new ops).2.Nodup := by
  have h := runOps_issued ops Jobs.new
  refine ⟨by simpa using h, ?_⟩
  rw [h]
  exact List.nodup_range' _ _

/-- C1, evaluated at the failing input: after a successful
`delete_job(1)`, a second `delete_job(1)` does not return `NotFound` —
it panics, because `Jobs::remove` never removed the id↔key mapping
entry, so `check_job` hands back a stale slot key and `&self.inner[k]`
aborts.  The `clear_jobs` half of the claim does hold: a repeated
`clear_jobs` is a no-op on the registry state and never errors. -/
theorem delete_twice_panics_clear_idempotent :
    Db.insert_job Jobs.new exJob exWrk = .ok (exSt1, 1) ∧
    Db.delete_job exSt1 1 = .ok exSt2 ∧
    Db.delete_job exSt2 1 = .panicked ∧
    Db.delete_job exSt2 1 ≠ .err (.notFound 1) ∧
    Db.clear_jobs exSt1 = .ok exSt2 ∧
    Db.clear_jobs exSt2 = .ok exSt2 := by
  refine ⟨rfl, rfl, rfl, ?_, rfl, rfl⟩
  decide

/-- C2, evaluated at the failing input: in the state reached by
`insert_job` (issuing id 1) followed by `delete_job(1)`, the id↔key
mapping still holds the pair `(1, 0)` although slot key 0 is no longer
live — an external id held in the mapping refers to no live slot, so the
claimed bijection between live slots and held ids is violated. -/
theorem mapping_retains_dead_slot :
    runOps Jobs.new [.ins exJob exWrk, .del 1] = (exSt2, [1]) ∧
    exSt2.check_job 1 = some 0 ∧
    exSt2.inner.get 0 = none :=
  ⟨rfl, rfl, rfl⟩

/-- C5 counterexample: dropping a job session that stores a child handle
(session id 42) signals SIGTERM, not SIGKILL. -/
theorem session_drop_sends_sigterm_not_sigkill :
    Session.dropSignals exStarted = [.signal 42 "SIGTERM"] ∧
    SigEvent.signal 42 "SIGKILL" ∉ Session.dropSignals exStarted := by
  refine ⟨rfl, ?_⟩
  decide

/-- C5 amended: `Drop for Session` delegates to `terminate`, which
signals SIGTERM (not SIGKILL) over the stored session id when a child
handle with an id is present, and signals nothing at all when no child
handle is stored (job never started, or already waited).  Drop never
emits SIGKILL. -/
theorem session_drop_signals (s : Session) :
    (∀ sid c, s.session = some c → c.id = some sid →
       s.dropSignals = [.signal sid "SIGTERM"]) ∧
    (s.session = none → s.dropSignals = []) ∧
    (∀ c, s.session = some c → c.id = none → s.dropSignals = []) ∧
    (∀ sid, SigEvent.signal sid "SIGKILL" ∉ s.dropSignals) := by
  rcases s with ⟨j, w, sess⟩
  cases sess with
  | none => simp [Session.dropSignals, Session.terminate]
  | some c =>
    obtain ⟨cid⟩ := c
    cases cid with
    | none => simp [Session.dropSignals, Session.terminate]
    | some sid =>
      refine ⟨?_, ?_, ?_, ?_⟩
      · intro sid2 c2 hc hid
        cases hc
        cases hid
        rfl
      · intro hc
        cases hc
      · intro c2 hc hid
        cases hc
        cases hid
      · intro sid2
        simp [Session.dropSignals, Session.terminate]

/-- C5 amended witness. -/
theorem session_drop_signals_w :
    Session.dropSignals exStarted = [SigEvent.signal 42 "SIGTERM"] :=
  (session_drop_signals exStarted).1 42 { id := some 42 } rfl rfl

/-- C6 counterexample: after `wait_job(1)` has started job 1 and run it
to completion, `Session::wait` has taken the child handle back out
(`is_started` is false again), so a subsequent `update_job(1, …)`
succeeds instead of failing with `AlreadyStarted`, although the job has
been started. -/
theorem update_after_wait_succeeds :
    Db.wait_job exSt1 1 7 = .ok exSt1 ∧
    Db.update_job exSt1 1 exJob2 exWrk2 =
      .ok { exSt1 with inner := exSt1.inner.setVal 0 (Session.new exJob2 exWrk2).1 } :=
  ⟨rfl, rfl⟩

/-- C6 amended: `update_job(id, new_job)` succeeds — replacing the
stored session with a freshly built one — exactly when `id` resolves to
a live slot whose session holds no child handle (`is_started()` false);
an id the mapping does not know fails with `NotFound`; a job currently
holding a child handle fails with `AlreadyStarted` and the stored job is
unchanged (the error is returned before any mutation).  In particular a
job whose `wait_job` has completed can be updated again. -/
theorem update_job_characterization (js : Jobs) (id : Nat) (j : Job) (w : RPath) :
    ((∃ js2, Db.update_job js id j w = .ok js2) ↔
       (∃ k s, js.check_job id = some k ∧ js.inner.get k = some s ∧
         s.is_started = false)) ∧
    (js.check_job id = none → Db.update_job js id j w = .err (.notFound id)) ∧
    (∀ k s, js.check_job id = some k → js.inner.get k = some s →
       s.is_started = true → Db.update_job js id j w = .err (.alreadyStarted id)) ∧
    (∀ k s, js.check_job id = some k → js.inner.get k = some s →
       s.is_started = false →
       Db.update_job js id j w =
         .ok { js with inner := js.inner.setVal k (Session.new j w).1 }) := by
  cases hk : js.check_job id with
  | none => simp [Db.update_job, hk]
  | some k =>
    cases hg : js.inner.get k with
    | none =>
      simp [Db.update_job, hk, hg]
      constructor
      · rintro k2 s rfl hg2
        rw [hg] at hg2
        cases hg2
      · rintro k2 s rfl hg2
        rw [hg] at hg2
        cases hg2
    | some s =>
      by_cases hs : s.is_started = true
      · simp [Db.update_job, hk, hg, hs]
        rintro k2 s2 rfl hg2
        rw [hg] at hg2
        cases hg2
        exact hs
      · rw [Bool.not_eq_true] at hs
        simp [Db.update_job, hk, hg, hs]
        constructor
        · rintro k2 s2 rfl hg2
          rw [hg] at hg2
          cases hg2
          exact hs
        · rintro k2 s2 rfl hg2 _
          rfl

/-- C6 amended witness: the `NotFound`, `AlreadyStarted` and success
cases each realized at a concrete input. -/
theorem update_job_characterization_w :
    Db.update_job exSt1 5 exJob2 exWrk2 = .err (.notFound 5) ∧
    Db.update_job exStJobs 1 exJob2 exWrk2 = .err (.alreadyStarted 1) ∧
    Db.update_job exSt1 1 exJob2 exWrk2 =
      .ok { exSt1 with inner := exSt1.inner.setVal 0 (Session.new exJob2 exWrk2).1 } :=
  ⟨(update_job_characterization exSt1 5 exJob2 exWrk2).2.1 rfl,
   (update_job_characterization exStJobs 1 exJob2 exWrk2).2.2.1 0 exStarted rfl rfl rfl,
   (update_job_characterization exSt1 1 exJob2 exWrk2).2.2.2 0
     (Session.new exJob exWrk).1 rfl rfl rfl⟩

/-- C7 counterexample: a run in which the spawn succeeds (pid 9, sid
recorded) but the post-spawn stdin hand-off fails — `write_all(…)?`
returns an error before the timeout is armed and the selection loop is
entered.  This run takes none of the three branches and never invokes
`kill()`: no SIGKILL is ever broadcast, refuting the claim that every
run takes exactly one branch and kills in all cases. -/
theorem timed_runner_stdin_failure_skips_kill :
    timedStart (some 9) false Branch.childExit =
      ({ sid := some 9 }, [REv.spawned 9], RunResult.errStdin) ∧
    REv.sigBroadcast 9 "SIGKILL" ∉ (timedStart (some 9) false Branch.childExit).2.1 ∧
    (timedStart (some 9) false Branch.childExit).2.1.filter REv.isTook = [] := by
  refine ⟨rfl, ?_, rfl⟩
  decide

/-- C7 amended: every timed run that reaches the selection loop (spawn
succeeded and the stdin hand-off to the child succeeded) takes exactly
one of its three branches (child exit, SIGINT, deadline), and in all
such cases the trace ends — after the loop and before the run
returns — with the supervisor's `kill()`, a SIGKILL broadcast over the
session; but when the stdin write fails after the spawn, `start`
returns that error before the loop, taking no branch and never
invoking `kill()`, and a spawn failure returns before any event. -/
theorem timed_runner_branch_then_kill (pid : Nat) (b : Branch) (stdinOk : Bool) :
    (stdinOk = true →
       (timedStart (some pid) stdinOk b).2.1 =
         [.spawned pid, .took b, .sigBroadcast pid "SIGKILL"] ∧
       (timedStart (some pid) stdinOk b).2.1.filter REv.isTook = [.took b] ∧
       (timedStart (some pid) stdinOk b).2.1.getLast? =
         some (.sigBroadcast pid "SIGKILL") ∧
       (timedStart (some pid) stdinOk b).2.2 = .ok) ∧
    (stdinOk = false →
       (timedStart (some pid) stdinOk b).2.1 = [.spawned pid] ∧
       (timedStart (some pid) stdinOk b).2.1.filter REv.isTook = [] ∧
       REv.sigBroadcast pid "SIGKILL" ∉ (timedStart (some pid) stdinOk b).2.1 ∧
       (timedStart (some pid) stdinOk b).2.2 = .errStdin) ∧
    ((timedStart none stdinOk b).2.1 = [] ∧
       (timedStart none stdinOk b).2.2 = .errSpawn) := by
  refine ⟨?_, ?_, rfl, rfl⟩
  · rintro rfl
    cases b <;> exact ⟨rfl, rfl, rfl, rfl⟩
  · rintro rfl
    refine ⟨rfl, rfl, ?_, rfl⟩
    intro hm
    rcases List.mem_singleton.mp hm with h
    cases h

/-- C7 amended witness: both the loop-reaching case (kill broadcast
last) and the stdin-failure case (no kill) at concrete inputs. -/
theorem timed_runner_branch_then_kill_w :
    (timedStart (some 9) true Branch.timedOut).2.1 =
      [REv.spawned 9, REv.took Branch.timedOut, REv.sigBroadcast 9 "SIGKILL"] ∧
    (timedStart (some 9) false Branch.timedOut).2.1 = [REv.spawned 9] :=
  ⟨((timed_runner_branch_then_kill 9 Branch.timedOut true).1 rfl).1,
   ((timed_runner_branch_then_kill 9 Branch.timedOut false).2.1 rfl).1⟩

/-- C9: materialization writes the job's script to `wrk_dir/run_file`,
opened write-only with mode `0o770` (whose bits include owner and group
execute), and the stdin input to `wrk_dir/inp_file`; both target paths
are `wrk_dir`-relative joins of the configured file names, and the built
session stores no child handle. -/
theorem session_new_materialization (j : Job) (w : RPath) :
    (Session.new j w).2 =
      [ { path := w.join j.run_file, content := j.script, mode := 0o770,
          writeOnly := true },
        { path := w.join j.inp_file, content := j.input, mode := 0o666,
          writeOnly := true } ] ∧
    (Session.new j w).1 = { job := j, wrk_dir := w, session := none } ∧
    0o770 &&& 0o100 = 0o100 ∧ 0o770 &&& 0o010 = 0o010 := by
  refine ⟨rfl, rfl, ?_, ?_⟩ <;> decide

/-- C10: `put_job_file` and `get_job_file` resolve the client-supplied
name by a raw `Path::join` onto the job's working directory: the
relative name `../../etc/passwd` resolves outside the working directory,
and an absolute name replaces the base path entirely. -/
theorem job_file_path_escapes_wrk_dir :
    Db.put_job_file_path exSt1 1 exEvilRel = .ok (exWrk.join exEvilRel) ∧
    (exWrk.join exEvilRel).normalize = ⟨true, [.name "etc", .name "passwd"]⟩ ∧
    RPath.isUnder exWrk (exWrk.join exEvilRel) = false ∧
    Db.get_job_file_path exSt1 1 exEvilAbs = .ok exEvilAbs ∧
    RPath.isUnder exWrk exEvilAbs = false := by
  refine ⟨rfl, rfl, ?_, rfl, ?_⟩ <;> decide

/-! ## Broadcast-loop lemmas (for the signal-broadcast claims) -/

theorem broadcastLoop_allOk (sig : String) (t2 : List Proc) (killOk : Nat → Bool)
    (h : ∀ pid, killOk pid = true) :
    ∀ l : List Upid, (broadcastLoop sig t2 killOk l).2 = true := by
  intro l
  induction l with
  | nil => rfl
  | cons c rest ih =>
    simp only [broadcastLoop]
    cases hfp : Upid.from_pid t2 c.pid with
    | none => simpa using ih
    | some p =>
      by_cases hpc : p = c
      · simp [hpc, h c.pid, ih]
      · simp [hpc, ih]

theorem broadcastLoop_err_from_kill (sig : String) (t2 : List Proc)
    (killOk : Nat → Bool) :
    ∀ l : List Upid, (broadcastLoop sig t2 killOk l).2 = false →
      ∃ c ∈ l, Upid.from_pid t2 c.pid = some c ∧ killOk c.pid = false := by
  intro l
  induction l with
  | nil => intro h; simp [broadcastLoop] at h
  | cons c rest ih =>
    intro h
    simp only [broadcastLoop] at h
    cases hfp : Upid.from_pid t2 c.pid with
    | none =>
      rw [hfp] at h
      simp at h
      obtain ⟨c2, hc2, hx⟩ := ih h
      exact ⟨c2, List.mem_cons_of_mem _ hc2, hx⟩
    | some p =>
      rw [hfp] at h
      by_cases hpc : p = c
      · by_cases hko : killOk c.pid = true
        · simp [hpc, hko] at h
          obtain ⟨c2, hc2, hx⟩ := ih h
          exact ⟨c2, List.mem_cons_of_mem _ hc2, hx⟩
        · rw [Bool.not_eq_true] at hko
          subst hpc
          exact ⟨p, List.mem_cons_self _ _, hfp, hko⟩
      · simp [hpc] at h
        obtain ⟨c2, hc2, hx⟩ := ih h
        exact ⟨c2, List.mem_cons_of_mem _ hc2, hx⟩

theorem broadcastLoop_killed_mem (sig : String) (t2 : List Proc)
    (killOk : Nat → Bool) :
    ∀ l : List Upid, ∀ pid s, KEv.killed pid s ∈ (broadcastLoop sig t2 killOk l).1 →
      s = sig ∧ ∃ c ∈ l, c.pid = pid ∧ Upid.from_pid t2 pid = some c := by
  intro l
  induction l with
  | nil => intro pid s h; simp [broadcastLoop] at h
  | cons c rest ih =>
    intro pid s h
    simp only [broadcastLoop] at h
    cases hfp : Upid.from_pid t2 c.pid with
    | none =>
      rw [hfp] at h
      simp at h
      obtain ⟨hsig, c2, hc2, hp, hf⟩ := ih pid s h
      exact ⟨hsig, c2, List.mem_cons_of_mem _ hc2, hp, hf⟩
    | some p =>
      rw [hfp] at h
      by_cases hpc : p = c
      · by_cases hko : killOk c.pid = true
        · subst hpc
          simp [hko] at h
          rcases h with ⟨hpid, hsig⟩ | h

          · subst hpid
            exact ⟨hsig, p, List.mem_cons_self _ _, rfl, hfp⟩
          · obtain ⟨hsig, c2, hc2, hp2, hf⟩ := ih pid s h
            exact ⟨hsig, c2, List.mem_cons_of_mem _ hc2, hp2, hf⟩
        · simp [hpc, hko] at h
      · simp [hpc] at h
        obtain ⟨hsig, c2, hc2, hp2, hf⟩ := ih pid s h
        exact ⟨hsig, c2, List.mem_cons_of_mem _ hc2, hp2, hf⟩

theorem broadcastLoop_tail_mem (sig : String) (t2 : List Proc)
    (killOk : Nat → Bool) (a : Upid) (l : List Upid)
    (hok : killOk a.pid = true) (e : KEv)
    (he : e ∈ (broadcastLoop sig t2 killOk l).1) :
    e ∈ (broadcastLoop sig t2 killOk (a :: l)).1 := by
  simp only [broadcastLoop]
  cases hfa : Upid.from_pid t2 a.pid with
  | none => exact List.mem_cons_of_mem _ he
  | some p =>
    dsimp only
    by_cases hpa : p = a
    · rw [if_pos hpa, if_pos hok]
      exact List.mem_cons_of_mem _ he
    · rw [if_neg hpa]
      exact List.mem_cons_of_mem _ he

theorem broadcastLoop_processed (sig : String) (t2 : List Proc)
    (killOk : Nat → Bool) (hok : ∀ pid, killOk pid = true) :
    ∀ l : List Upid, ∀ c ∈ l,
      (Upid.from_pid t2 c.pid = some c →
         KEv.killed c.pid sig ∈ (broadcastLoop sig t2 killOk l).1) ∧
      (Upid.from_pid t2 c.pid = none →
         KEv.infoGone c.pid ∈ (broadcastLoop sig t2 killOk l).1) ∧
      (∀ p, Upid.from_pid t2 c.pid = some p → p ≠ c →
         KEv.warnReused c.pid ∈ (broadcastLoop sig t2 killOk l).1) := by
  intro l
  induction l with
  | nil => intro c hc; simp at hc
  | cons a rest ih =>
    intro c hc
    rcases List.mem_cons.mp hc with rfl | hc2
    · refine ⟨?_, ?_, ?_⟩
      · intro hfp
        simp only [broadcastLoop]
        rw [hfp]
        dsimp only
        rw [if_pos rfl, if_pos (hok c.pid)]
        exact List.mem_cons_self _ _
      · intro hfp
        simp only [broadcastLoop]
        rw [hfp]
        exact List.mem_cons_self _ _
      · intro p hfp hpc
        simp only [broadcastLoop]
        rw [hfp]
        dsimp only
        rw [if_neg hpc]
        exact List.mem_cons_self _ _
    · obtain ⟨h1, h2, h3⟩ := ih c hc2
      refine ⟨?_, ?_, ?_⟩
      · intro hfp
        exact broadcastLoop_tail_mem sig t2 killOk a rest (hok a.pid) _ (h1 hfp)
      · intro hfp
        exact broadcastLoop_tail_mem sig t2 killOk a rest (hok a.pid) _ (h2 hfp)
      · intro p hfp hpc
        exact broadcastLoop_tail_mem sig t2 killOk a rest (hok a.pid) _ (h3 p hfp hpc)

/-! ## Signal-broadcast claim theorems -/

/-- C4 counterexample: session 5 holds pids 10 and 11; the `kill(2)`
call on pid 10 fails.  The broadcast then aborts with an error — pid 11
is never signalled and the failure is surfaced to the caller — whereas
with every kill succeeding both pids are signalled.  This refutes the
claim that a per-pid delivery failure is merely logged, does not
short-circuit the broadcast, and is not surfaced as an error. -/
theorem kill_failure_short_circuits :
    impl_signal_processes_by_session_id 5 "SIGTERM" exTable exTable exKillFail10 =
      ([], false) ∧
    impl_signal_processes_by_session_id 5 "SIGTERM" exTable exTable exKillAllOk =
      ([.killed 10 "SIGTERM", .killed 11 "SIGTERM"], true) :=
  ⟨rfl, rfl⟩

/-- C4 amended: failures to re-resolve a pid (process already exited)
and identity mismatches are logged and skipped without aborting — with
every `kill(2)` call succeeding the broadcast always completes
successfully, whatever the two process tables are — but a failure of the
`kill(2)` call itself short-circuits via `?`: the broadcast returns an
error, and an error can only arise from such a kill failure on a
re-resolved, identity-matching pid (given a recognized signal name). -/
theorem broadcast_kill_failure_policy (sid : Nat) (sig : String)
    (t1 t2 : List Proc) (killOk : Nat → Bool) (h : validSignal sig = true) :
    ((∀ pid, killOk pid = true) →
       (impl_signal_processes_by_session_id sid sig t1 t2 killOk).2 = true) ∧
    ((impl_signal_processes_by_session_id sid sig t1 t2 killOk).2 = false →
       ∃ c ∈ get_child_processes t1 sid,
         Upid.from_pid t2 c.pid = some c ∧ killOk c.pid = false) := by
  constructor
  · intro hok
    simp only [impl_signal_processes_by_session_id, h, if_true]
    exact broadcastLoop_allOk sig t2 killOk hok _
  · intro hfail
    simp only [impl_signal_processes_by_session_id, h, if_true] at hfail
    exact broadcastLoop_err_from_kill sig t2 killOk _ hfail

/-- C4 amended witness. -/
theorem broadcast_kill_failure_policy_w :
    (impl_signal_processes_by_session_id 5 "SIGTERM" exTable exTable exKillAllOk).2 =
      true :=
  (broadcast_kill_failure_policy 5 "SIGTERM" exTable exTable exKillAllOk
    (by decide)).1 (fun _ => rfl)

/-- C8: in a broadcast over a session, (a) a kill event can only carry
the requested signal and a pid whose freshly re-resolved
`(pid, start_time)` identity equals an enumerated identity; (b) a pid
that can no longer be resolved at recheck time is never signalled; and
(c) when every `kill(2)` call succeeds, each enumerated process is
processed: signalled if its fresh identity matches, skipped with an info
log if it has exited, skipped with a reuse warning if its start time
differs. -/
theorem broadcast_recheck_guard (sid : Nat) (sig : String) (t1 t2 : List Proc)
    (killOk : Nat → Bool) (h : validSignal sig = true) :
    (∀ pid s,
       KEv.killed pid s ∈ (impl_signal_processes_by_session_id sid sig t1 t2 killOk).1 →
       s = sig ∧ ∃ c ∈ get_child_processes t1 sid,
         c.pid = pid ∧ Upid.from_pid t2 pid = some c) ∧
    (∀ c ∈ get_child_processes t1 sid, Upid.from_pid t2 c.pid = none →
       ∀ s, KEv.killed c.pid s ∉
         (impl_signal_processes_by_session_id sid sig t1 t2 killOk).1) ∧
    ((∀ pid, killOk pid = true) → ∀ c ∈ get_child_processes t1 sid,
       (Upid.from_pid t2 c.pid = some c →
          KEv.killed c.pid sig ∈
            (impl_signal_processes_by_session_id sid sig t1 t2 killOk).1) ∧
       (Upid.from_pid t2 c.pid = none →
          KEv.infoGone c.pid ∈
            (impl_signal_processes_by_session_id sid sig t1 t2 killOk).1) ∧
       (∀ p, Upid.from_pid t2 c.pid = some p → p ≠ c →
          KEv.warnReused c.pid ∈
            (impl_signal_processes_by_session_id sid sig t1 t2 killOk).1)) := by
  have hred : impl_signal_processes_by_session_id sid sig t1 t2 killOk =
      broadcastLoop sig t2 killOk (get_child_processes t1 sid) := by
    simp [impl_signal_processes_by_session_id, h]
  refine ⟨?_, ?_, ?_⟩
  · intro pid s hm
    rw [hred] at hm
    exact broadcastLoop_killed_mem sig t2 killOk _ pid s hm
  · intro c hc hfp s hm
    rw [hred] at hm
    obtain ⟨-, c2, -, hp2, hf⟩ := broadcastLoop_killed_mem sig t2 killOk _ _ s hm
    rw [hfp] at hf
    cases hf
  · intro hok c hc
    rw [hred]
    exact broadcastLoop_processed sig t2 killOk hok _ c hc

/-- C8 witness: concrete broadcast in which pid 10's identity matches at
recheck time and is signalled. -/
theorem broadcast_recheck_guard_w :
    KEv.killed 10 "SIGKILL" ∈
      (impl_signal_processes_by_session_id 5 "SIGKILL" exTable exTable exKillAllOk).1 :=
  ((broadcast_recheck_guard 5 "SIGKILL" exTable exTable exKillAllOk
      (by decide)).2.2 (fun _ => rfl) ⟨10, 100⟩ (by decide)).1 (by decide)

end Runners
